import Mathlib

/-!
# Verification of the Stock_Summary trade-extraction engine and portfolio aggregator

Shallow embedding of `src/core/parser.py`, `src/models/trade_model.py` and the
aggregation loop of `SheetsLedger.update_portfolio_summary` in
`src/integrations/sheets_ledger.py`.

Modelling conventions:
* Python `float` values are modelled as exact rationals (`ℚ`); all numeric
  literals appearing in the claims are exactly representable, so the model and
  the floating-point program agree on every concrete computation checked here.
* Python exceptions are modelled with `Except PyErr`; the `try/except` blocks
  of the source are explicit `match`es on the `Except` value.
* The HTML body handed to BeautifulSoup is modelled at the boundary the parser
  itself consumes: a list of table rows, each row the list of its cells'
  stripped text contents (`row.find_all(["td","th"])` + `get_text(strip=True)`).
  Everything from that point on is translated from the source.
* `re.search`/`re.match` uses of the five fixed patterns are embedded as
  explicit leftmost-match scanners with the same alternative order and
  backtracking behaviour; `re.IGNORECASE` is ASCII case folding.
* `datetime.strptime` with format `"%Y-%m-%d %H:%M:%S"` is embedded following
  CPython's `_strptime` field regexes plus the `datetime` constructor's range
  validation (day-of-month, seconds).
-/

/-- `needle` is a prefix of `hay` (character lists). -/
def listPre : List Char → List Char → Bool
  | [], _ => true
  | _ :: _, [] => false
  | p :: ps, c :: cs => p == c && listPre ps cs

/-- Substring test on character lists: Python's `needle in hay`. -/
def hasSubL (nd : List Char) : List Char → Bool
  | [] => nd.isEmpty
  | c :: cs => listPre nd (c :: cs) || hasSubL nd cs

/-- Python's `needle in hay` on strings. -/
def hasSub (nd hay : String) : Bool := hasSubL nd.data hay.data

/-- Python `str.upper()` (per-character ASCII uppercasing; the strings this is
applied to in the source are ASCII letters, digits and CJK characters, on which
this agrees with Python). -/
def pyUpper (s : String) : String := ⟨s.data.map Char.toUpper⟩

/-- Python `str.strip()` (whitespace trimming on both ends). -/
def pyStrip (s : String) : String :=
  ⟨((s.data.dropWhile Char.isWhitespace).reverse.dropWhile Char.isWhitespace).reverse⟩

/-- Python `str.replace(",", "")`: drop every comma. -/
def stripCommas (s : String) : String := ⟨s.data.filter (fun c => c ≠ ',')⟩

/-- Python `str.zfill(2)` for the (1- or 2-digit) month/day strings. -/
def zfill2 (s : String) : String := if s.length < 2 then "0" ++ s else s

/-- ASCII lowercasing of one character, the case folding `re.IGNORECASE`
performs on the ASCII patterns of the source. -/
def asciiLow (c : Char) : Char :=
  if 65 ≤ c.toNat ∧ c.toNat ≤ 90 then Char.ofNat (c.toNat + 32) else c

/-- Case-insensitive character comparison (`re.IGNORECASE`). -/
def ciChEq (p c : Char) : Bool := asciiLow p == asciiLow c

/-- Case-insensitive literal match; returns the remaining input on success. -/
def ciPre : List Char → List Char → Option (List Char)
  | [], cs => some cs
  | _ :: _, [] => none
  | p :: ps, c :: cs => if ciChEq p c then ciPre ps cs else none

/-- Strict code-point lexicographic order on strings, as Python's `sorted`
compares `str` keys. -/
def lexLt : List Char → List Char → Bool
  | [], [] => false
  | [], _ :: _ => true
  | _ :: _, [] => false
  | a :: as, b :: bs => if a.toNat < b.toNat then true
      else if a.toNat = b.toNat then lexLt as bs else false

/-- Insert into a lexicographically sorted list of strings. -/
def insSorted (c : String) : List String → List String
  | [] => [c]
  | x :: xs => if lexLt c.data x.data then c :: x :: xs else x :: insSorted c xs

/-- `sorted(...)` over a list of string keys. -/
def sortCodes (l : List String) : List String := l.foldr insSorted []

/-- Numeric value of a digit run. -/
def natOfDigits (ds : List Char) : Nat := ds.foldl (fun a c => a * 10 + (c.toNat - 48)) 0

/-- `10 ^ n` as a rational. -/
def tenPow (n : Nat) : ℚ := ((10 ^ n : Nat) : ℚ)

/-- Python `float(s)` on an already-stripped character list: optional sign,
digits with an optional decimal point (at least one digit overall), optional
exponent part.  `inf`/`nan` and digit-group underscores are not representable
in `ℚ` and do not occur in the inputs considered; they are rejected. -/
def pyFloatCore (cs : List Char) : Option ℚ :=
  let s1 := match cs with
    | '+' :: r => ((1 : ℚ), r)
    | '-' :: r => ((-1 : ℚ), r)
    | r => ((1 : ℚ), r)
  let sgn := s1.1
  let ip := s1.2.span Char.isDigit
  let f1 : List Char × List Char := match ip.2 with
    | '.' :: r => r.span Char.isDigit
    | r => ([], r)
  let fp := f1.1
  let cs3 := f1.2
  if ip.1.isEmpty && fp.isEmpty then none
  else
    let mant : ℚ := (natOfDigits ip.1 : ℚ) + (natOfDigits fp : ℚ) / tenPow fp.length
    match cs3 with
    | [] => some (sgn * mant)
    | 'e' :: r | 'E' :: r =>
      let e1 := match r with
        | '+' :: r2 => (false, r2)
        | '-' :: r2 => (true, r2)
        | r2 => (false, r2)
      let ed := e1.2.span Char.isDigit
      if ed.1.isEmpty || !ed.2.isEmpty then none
      else
        let e := natOfDigits ed.1
        some (sgn * mant * (if e1.1 then 1 / tenPow e else tenPow e))
    | _ => none

/-- Python `float(s)` (leading/trailing whitespace is stripped first). -/
def pyFloat (s : String) : Option ℚ := pyFloatCore (pyStrip s).data

/-- The parser's numeric validation `re.match(r"^\d+\.?\d*$", s)`. -/
def numPat (s : String) : Bool :=
  match s.data.span Char.isDigit with
  | (ds, rest) =>
    !ds.isEmpty && (match rest with
      | [] => true
      | '.' :: r => r.all Char.isDigit
      | _ => false)

/-- Round half to even (Python's `round` on exact values). -/
def rhe (q : ℚ) : ℤ :=
  let n := ⌊q⌋
  let frac := q - (n : ℚ)
  if frac < 1 / 2 then n
  else if 1 / 2 < frac then n + 1
  else if n % 2 = 0 then n else n + 1

/-- Python `round(x, 2)`. -/
def round2 (q : ℚ) : ℚ := ((rhe (q * 100) : ℤ) : ℚ) / 100

/-- A `datetime.datetime` value (the fields the program uses). -/
structure PyDateTime where
  year : Nat
  month : Nat
  day : Nat
  hour : Nat
  minute : Nat
  second : Nat
deriving DecidableEq

/-- Gregorian leap year. -/
def isLeap (y : Nat) : Bool := y % 4 = 0 && (y % 100 ≠ 0 || y % 400 = 0)

/-- Days in a month. -/
def daysInMonth (y m : Nat) : Nat :=
  if m = 2 then (if isLeap y then 29 else 28)
  else if m = 4 ∨ m = 6 ∨ m = 9 ∨ m = 11 then 30 else 31

/-- The `datetime` constructor's validation for fields whose range the
`_strptime` regexes do not already pin down: `MINYEAR ≤ year`, day of month,
`second ≤ 59`. -/
def mkDatetime (y mo d h mi s : Nat) : Option PyDateTime :=
  if 1 ≤ y && 1 ≤ d && d ≤ daysInMonth y mo && s ≤ 59 then
    some ⟨y, mo, d, h, mi, s⟩
  else none

/-- Value of a two-digit run. -/
def d2v (a b : Char) : Nat := (a.toNat - 48) * 10 + (b.toNat - 48)

/-- Value of a one-digit run. -/
def d1v (a : Char) : Nat := a.toNat - 48

/-- `%m` candidates (`1[0-2]|0[1-9]|[1-9]`), in alternative order. -/
def mCands : List Char → List (Nat × List Char)
  | a :: b :: r =>
    (if (a = '1' ∧ 48 ≤ b.toNat ∧ b.toNat ≤ 50) ∨ (a = '0' ∧ 49 ≤ b.toNat ∧ b.toNat ≤ 57)
     then [(d2v a b, r)] else [])
    ++ (if 49 ≤ a.toNat ∧ a.toNat ≤ 57 then [(d1v a, b :: r)] else [])
  | [a] => if 49 ≤ a.toNat ∧ a.toNat ≤ 57 then [(d1v a, [])] else []
  | [] => []

/-- `%d` candidates (`3[01]|[12]\d|0[1-9]|[1-9]`), in alternative order. -/
def dCands : List Char → List (Nat × List Char)
  | a :: b :: r =>
    (if (a = '3' ∧ 48 ≤ b.toNat ∧ b.toNat ≤ 49) ∨ ((a = '1' ∨ a = '2') ∧ b.isDigit)
        ∨ (a = '0' ∧ 49 ≤ b.toNat ∧ b.toNat ≤ 57)
     then [(d2v a b, r)] else [])
    ++ (if 49 ≤ a.toNat ∧ a.toNat ≤ 57 then [(d1v a, b :: r)] else [])
  | [a] => if 49 ≤ a.toNat ∧ a.toNat ≤ 57 then [(d1v a, [])] else []
  | [] => []

/-- `%H` candidates (`2[0-3]|[0-1]\d|\d`), in alternative order. -/
def hCands : List Char → List (Nat × List Char)
  | a :: b :: r =>
    (if (a = '2' ∧ 48 ≤ b.toNat ∧ b.toNat ≤ 51) ∨ ((a = '0' ∨ a = '1') ∧ b.isDigit)
     then [(d2v a b, r)] else [])
    ++ (if a.isDigit then [(d1v a, b :: r)] else [])
  | [a] => if a.isDigit then [(d1v a, [])] else []
  | [] => []

/-- `%M` candidates (`[0-5]\d|\d`), in alternative order. -/
def minCands : List Char → List (Nat × List Char)
  | a :: b :: r =>
    (if 48 ≤ a.toNat ∧ a.toNat ≤ 53 ∧ b.isDigit then [(d2v a b, r)] else [])
    ++ (if a.isDigit then [(d1v a, b :: r)] else [])
  | [a] => if a.isDigit then [(d1v a, [])] else []
  | [] => []

/-- `%S` candidates (`6[0-1]|[0-5]\d|\d`), in alternative order. -/
def sCands : List Char → List (Nat × List Char)
  | a :: b :: r =>
    (if (a = '6' ∧ 48 ≤ b.toNat ∧ b.toNat ≤ 49) ∨ (48 ≤ a.toNat ∧ a.toNat ≤ 53 ∧ b.isDigit)
     then [(d2v a b, r)] else [])
    ++ (if a.isDigit then [(d1v a, b :: r)] else [])
  | [a] => if a.isDigit then [(d1v a, [])] else []
  | [] => []

/-- Regex backtracking over ordered alternative candidates. -/
def firstSome {α : Type} (cands : List (Nat × List Char)) (k : Nat → List Char → Option α) :
    Option α :=
  match cands with
  | [] => none
  | (n, r) :: rest =>
    match k n r with
    | some a => some a
    | none => firstSome rest k

/-- `datetime.strptime(str, "%Y-%m-%d %H:%M:%S")`, `none` for `ValueError`. -/
def strptimeYmdHMS (str : String) : Option PyDateTime :=
  match str.data with
  | a :: b :: c :: d :: '-' :: r1 =>
    if a.isDigit && b.isDigit && c.isDigit && d.isDigit then
      firstSome (mCands r1) fun mo r2 =>
        match r2 with
        | '-' :: r3 =>
          firstSome (dCands r3) fun dy r4 =>
            match r4 with
            | ' ' :: r5 =>
              firstSome (hCands r5) fun hh r6 =>
                match r6 with
                | ':' :: r7 =>
                  firstSome (minCands r7) fun mi r8 =>
                    match r8 with
                    | ':' :: r9 =>
                      firstSome (sCands r9) fun ss r10 =>
                        match r10 with
                        | [] => mkDatetime (natOfDigits [a, b, c, d]) mo dy hh mi ss
                        | _ => none
                    | _ => none
                | _ => none
            | _ => none
        | _ => none
    else none
  | _ => none

/-- `\d{1,2}` immediately followed by the separator `sep`: greedy with
backtracking.  Returns the matched digits and the input after the separator. -/
def grab12 (sep : Char) : List Char → Option (String × List Char)
  | a :: b :: c :: rest =>
    if a.isDigit && b.isDigit && c = sep then some (⟨[a, b]⟩, rest)
    else if a.isDigit && b = sep then some (⟨[a]⟩, c :: rest)
    else none
  | [a, b] => if a.isDigit && b = sep then some (⟨[a]⟩, []) else none
  | _ => none

/-- Match `(\d{4})年(\d{1,2})月(\d{1,2})日` anchored at the head of the input. -/
def dateAt : List Char → Option (String × String × String)
  | c1 :: c2 :: c3 :: c4 :: y :: rest =>
    if c1.isDigit && c2.isDigit && c3.isDigit && c4.isDigit && y = '年' then
      (grab12 '月' rest).bind fun mr =>
        (grab12 '日' mr.2).map fun dr => (⟨[c1, c2, c3, c4]⟩, mr.1, dr.1)
    else none
  | _ => none

/-- `re.search` of the date pattern: leftmost match. -/
def searchDate : List Char → Option (String × String × String)
  | [] => none
  | c :: rest =>
    match dateAt (c :: rest) with
    | some r => some r
    | none => searchDate rest

/-- Lines 41–46 of `parser.py`: extract the report date from the subject and
format it as `YYYY-MM-DD` with zero-padded month and day. -/
def extractFubonDate (subject : String) : Option String :=
  (searchDate subject.data).map fun g => g.1 ++ "-" ++ zfill2 g.2.1 ++ "-" ++ zfill2 g.2.2

/-- The `Trade` model of `trade_model.py`.  `total_amount` is stored resolved:
after `__init__` it is never `None` (the derived value is computed exactly once
at construction; the structure is immutable, as a Lean structure always is).
`date = none` models the `datetime.now()` default used when no transaction
time is known. -/
structure Trade where
  symbol : String
  stock_name : Option String
  side : String
  quantity : ℚ
  price : ℚ
  date : Option PyDateTime
  total_amount : ℚ
  broker : String
  order_id : Option String
deriving DecidableEq

/-- The validating constructor of `Trade`: pydantic checks the two `gt=0`
field constraints (a violation raises `ValidationError`, a `ValueError`,
modelled as `none`); `__init__` then fills in the derived `total_amount` when
it was not supplied. -/
def mkTrade (symbol : String) (stock_name : Option String) (side : String)
    (quantity price : ℚ) (date : Option PyDateTime) (total? : Option ℚ)
    (order_id : Option String) (broker : String) : Option Trade :=
  if 0 < quantity ∧ 0 < price then
    some ⟨symbol, stock_name, side, quantity, price, date,
      total?.getD (round2 (quantity * price)), broker, order_id⟩
  else none

/-- The Python exception classes distinguished by the handlers in the source. -/
inductive PyErr where
  | valueError
  | indexError
  | otherError
deriving DecidableEq

/-- After the optional whitespace of a field pattern: `\s*`, an optional `$`
(price pattern only), then a nonempty greedy capture of characters in `cls`.
All character classes involved are disjoint, so greedy matching is exact. -/
def capClassAfter (dollar : Bool) (cls : Char → Bool) (rest : List Char) : Option String :=
  let r1 := rest.dropWhile Char.isWhitespace
  let r2 := if dollar then (match r1 with | '$' :: t => t | _ => r1) else r1
  match r2.span cls with
  | (cap, _) => if cap.isEmpty then none else some ⟨cap⟩

/-- Two-valued case-insensitive character test, kept explicit so proofs can
case split on the captured characters. -/
def ci2 (lo up c : Char) : Bool := c = lo || c = up

/-- Capture of `(BUY|SELL|Buy|Sell)` under `re.IGNORECASE`: the first
alternative `BUY` case-folds to `buy`, so any casing of `buy` matches it
first; otherwise any casing of `sell` matches.  The original text is
captured. -/
def sideTokAt (r1 : List Char) : Option String :=
  match r1 with
  | c1 :: c2 :: c3 :: c4 :: _ =>
    if ci2 'b' 'B' c1 && ci2 'u' 'U' c2 && ci2 'y' 'Y' c3 then some ⟨[c1, c2, c3]⟩
    else if ci2 's' 'S' c1 && ci2 'e' 'E' c2 && ci2 'l' 'L' c3 && ci2 'l' 'L' c4 then
      some ⟨[c1, c2, c3, c4]⟩
    else none
  | [c1, c2, c3] =>
    if ci2 'b' 'B' c1 && ci2 'u' 'U' c2 && ci2 'y' 'Y' c3 then some ⟨[c1, c2, c3]⟩ else none
  | _ => none

/-- Try the label alternatives in pattern order at one input position; on a
label match, run the capture continuation, backtracking to the next
alternative on failure. -/
def tryLabs (capk : List Char → Option String) : List (List Char) → List Char → Option String
  | [], _ => none
  | l :: ls, cs =>
    match (ciPre l cs).bind capk with
    | some r => some r
    | none => tryLabs capk ls cs

/-- `re.search` for one field pattern: scan for the leftmost position where a
label alternative plus capture succeeds. -/
def searchField (labels : List (List Char)) (capk : List Char → Option String) :
    List Char → Option String
  | [] => none
  | c :: cs =>
    match tryLabs capk labels (c :: cs) with
    | some r => some r
    | none => searchField labels capk cs

/-- `[A-Z0-9]` under `re.IGNORECASE`. -/
def alnumCh (c : Char) : Bool := c.isAlpha || c.isDigit

/-- `[\d,.]`. -/
def numCh (c : Char) : Bool := c.isDigit || c = ',' || c = '.'

/-- `[A-Z0-9-]` under `re.IGNORECASE`. -/
def oidCh (c : Char) : Bool := c.isAlpha || c.isDigit || c = '-'

/-- `re.search(r"(?:Symbol|Ticker|Stock):\s*([A-Z0-9]+)", text, re.IGNORECASE)`. -/
def locSymbol (t : String) : Option String :=
  searchField ["Symbol:".data, "Ticker:".data, "Stock:".data]
    (capClassAfter false alnumCh) t.data

/-- `re.search(r"(?:Action|Side|Type):\s*(BUY|SELL|Buy|Sell)", text, re.IGNORECASE)`. -/
def locSide (t : String) : Option String :=
  searchField ["Action:".data, "Side:".data, "Type:".data]
    (fun rest => sideTokAt (rest.dropWhile Char.isWhitespace)) t.data

/-- `re.search(r"(?:Quantity|Qty|Shares):\s*([\d,.]+)", text, re.IGNORECASE)`. -/
def locQty (t : String) : Option String :=
  searchField ["Quantity:".data, "Qty:".data, "Shares:".data]
    (capClassAfter false numCh) t.data

/-- `re.search(r"(?:Price|Cost):\s*\$?([\d,.]+)", text, re.IGNORECASE)`. -/
def locPrice (t : String) : Option String :=
  searchField ["Price:".data, "Cost:".data]
    (capClassAfter true numCh) t.data

/-- `re.search(r"(?:Order ID|Ref):\s*([A-Z0-9-]+)", text, re.IGNORECASE)`. -/
def locOrderId (t : String) : Option String :=
  searchField ["Order ID:".data, "Ref:".data]
    (capClassAfter false oidCh) t.data

/-- The body of `_parse_regex`'s `try:` block (lines 123–139 of `parser.py`):
locate the five fields, require the four mandatory ones, parse the numbers
(`float` raises `ValueError`), construct the `Trade` (pydantic validation
raises a `ValueError`). -/
def parseRegexTry (text : String) : Except PyErr (Option Trade) :=
  match locSymbol text, locSide text, locQty text, locPrice text with
  | some sy, some sd, some q, some p =>
    match pyFloat (stripCommas q), pyFloat (stripCommas p) with
    | some qv, some pv =>
      match mkTrade (pyUpper sy) none (pyUpper sd) qv pv none none (locOrderId text) "Unknown" with
      | some t => .ok (some t)
      | none => .error .valueError
    | _, _ => .error .valueError
  | _, _, _, _ => .ok none

/-- `_parse_regex` (lines 120–141): the `except Exception: return None`
handler around the `try:` body. -/
def parseRegexCaught (text : String) : Option Trade :=
  match parseRegexTry text with
  | .ok o => o
  | .error _ => none

/-- The non-data-row markers of line 60 of `parser.py`. -/
def fubonMarkers : List String := ["股票名稱", "以上資料", "重要提示"]

/-- `re.match(r"(\d+)(.*)", symbol_full)` followed by the symbol/name split of
lines 82–88: leading digit run as the code, the remainder of the first line
(`.` does not cross a newline) stripped as the display name; if there is no
leading digit the whole cell is the symbol and the name is empty. -/
def splitSym (s : String) : String × String :=
  match s.data.span Char.isDigit with
  | (ds, rest) =>
    if ds.isEmpty then (s, "")
    else (⟨ds⟩, pyStrip ⟨rest.takeWhile (fun c => c ≠ '\n')⟩)

/-- The row-level `try:` block of `_parse_fubon_report` (lines 79–108):
symbol/name split, side classification, numeric and timestamp parsing,
`Trade` construction; each failure raises a `ValueError`. -/
def fubonRowTry (reportDate : String) (texts : List String) : Except PyErr Trade :=
  let qtyRaw := stripCommas (texts.getD 2 "")
  let priceRaw := stripCommas (texts.getD 3 "")
  let sy := splitSym (texts.getD 0 "")
  let side := if hasSub "賣" (texts.getD 1 "") then "SELL" else "BUY"
  match pyFloat qtyRaw, pyFloat priceRaw with
  | some qty, some price =>
    match strptimeYmdHMS (reportDate ++ " " ++ texts.getD 6 "") with
    | none => .error .valueError
    | some ts =>
      match mkTrade sy.1 (some sy.2) side qty price (some ts) none
          (some (texts.getD 5 "")) "Fubon Securities (富邦證券)" with
      | some t => .ok t
      | none => .error .valueError
  | _, _ => .error .valueError

/-- One iteration of the row loop of `_parse_fubon_report` (lines 52–111):
the three `continue` guards, then the row-level `try:` block whose
`ValueError`/`IndexError` handler skips the row.  `ok none` is a skipped row,
`ok (some t)` an extracted trade. -/
def fubonRowStep (reportDate : String) (texts : List String) : Except PyErr (Option Trade) :=
  if texts.length < 7 then .ok none
  else if fubonMarkers.any (fun kw => hasSub kw (texts.getD 0 "")) then .ok none
  else if !(numPat (stripCommas (texts.getD 2 "")) && numPat (stripCommas (texts.getD 3 ""))) then
    .ok none
  else
    match fubonRowTry reportDate texts with
    | .ok t => .ok (some t)
    | .error .valueError => .ok none
    | .error .indexError => .ok none
    | .error .otherError => .error .otherError

/-- The `try:` body of `_parse_fubon_report` (lines 39–114): date extraction
(missing date returns `[]`), then the row loop appending extracted trades in
row order. -/
def parseFubonTry (subject : String) (rows : List (List String)) : Except PyErr (List Trade) :=
  match extractFubonDate subject with
  | none => .ok []
  | some reportDate =>
    rows.foldlM (fun acc row => (fubonRowStep reportDate row).map (fun o => acc ++ o.toList)) []

/-- `_parse_fubon_report` (lines 36–118) with its outer
`except Exception: return []` handler. -/
def parseFubonReport (subject : String) (rows : List (List String)) : List Trade :=
  match parseFubonTry subject rows with
  | .ok l => l
  | .error _ => []

/-- `TradeParser.parse` (lines 22–33): dispatch on the broker marker in the
subject; `rows` is the BeautifulSoup row/cell extraction of the HTML body
(external collaborator, see the module docstring). -/
def parse (subject body : String) (rows : List (List String)) : List Trade :=
  if hasSub "富邦證券" subject then parseFubonReport subject rows
  else
    match parseRegexCaught body with
    | some t => [t]
    | none => []

/-- A Python `except Exception` handler returning a default. -/
def exceptAll {α : Type} (x : Except PyErr α) (d : α) : Except PyErr α :=
  match x with
  | .error _ => .ok d
  | .ok a => .ok a

/-- The whole extraction engine in the exception monad: the value the engine
computes together with any exception it would propagate to its caller. -/
def parseM (subject body : String) (rows : List (List String)) : Except PyErr (List Trade) :=
  if hasSub "富邦證券" subject then exceptAll (parseFubonTry subject rows) []
  else
    (exceptAll (parseRegexTry body) none).map fun o =>
      match o with
      | some t => [t]
      | none => []

/-- Per-symbol accumulator of the aggregation loop (lines 260–266 of
`sheets_ledger.py`). -/
structure SymEntry where
  name : String
  buy_qty : ℚ := 0
  buy_amt : ℚ := 0
  sell_qty : ℚ := 0
  sell_amt : ℚ := 0
  realized_pl : ℚ := 0
deriving DecidableEq

/-- The loop state: the `portfolio` dict (insertion-ordered association list,
as a Python dict) and `total_realized_pl`. -/
structure AggState where
  pf : List (String × SymEntry)
  total_realized : ℚ
deriving DecidableEq

/-- Dict lookup. -/
def lookupEntry (pf : List (String × SymEntry)) (code : String) : Option SymEntry :=
  (pf.find? (fun p => p.1 == code)).map Prod.snd

/-- Dict write: replace in place if the key exists, else append (Python dict
insertion order). -/
def setEntry : List (String × SymEntry) → String → SymEntry → List (String × SymEntry)
  | [], code, e => [(code, e)]
  | (c, x) :: rest, code, e =>
    if c == code then (c, e) :: rest else (c, x) :: setEntry rest code e

/-- The column indices resolved by `find_col` (lines 232–243). -/
structure AggIx where
  time : Nat
  code : Nat
  name : Nat
  action : Nat
  qty : Nat
  price : Nat
  amt : Nat
deriving DecidableEq

/-- Index of the first occurrence of `n` (Python `list.index`; the caller
guarantees membership). -/
def idxOfS (n : String) : List String → Nat
  | [] => 0
  | h :: t => if h == n then 0 else idxOfS n t + 1

/-- `find_col`: first matching synonym's position, else the fixed default. -/
def findCol (headers : List String) (names : List String) (dflt : Nat) : Nat :=
  match names.find? (fun n => headers.contains n) with
  | some n => idxOfS n headers
  | none => dflt

/-- The header resolution of lines 237–243. -/
def mkIx (headers : List String) : AggIx where
  time := findCol headers ["Trade Time", "Date"] 0
  code := findCol headers ["Stock Code", "Stock Symbol", "Symbol"] 1
  name := findCol headers ["Stock Name", "Name"] 2
  action := findCol headers ["Action", "Side"] 3
  qty := findCol headers ["Shares", "Quantity"] 4
  price := findCol headers ["Unit Price", "Price"] 5
  amt := findCol headers ["Total Amount", "Amount"] 6

/-- Average buy cost as the code computes it (lines 276 and 303):
`buy_amt / buy_qty` when some quantity has been bought, else `0`. -/
def avgBuy (e : SymEntry) : ℚ := if 0 < e.buy_qty then e.buy_amt / e.buy_qty else 0

/-- Net held quantity (line 302). -/
def netQty (e : SymEntry) : ℚ := e.buy_qty - e.sell_qty

/-- The BUY branch (lines 271–273). -/
def applyBuy (d : SymEntry) (qty amt : ℚ) : SymEntry :=
  { d with buy_qty := d.buy_qty + qty, buy_amt := d.buy_amt + amt }

/-- The SELL branch (lines 274–283): realized profit of this sale against the
average buy cost accumulated so far; returns the updated entry and the
profit added to the process-wide total. -/
def applySell (d : SymEntry) (qty amt : ℚ) : SymEntry × ℚ :=
  let avg_buy_before := if 0 < d.buy_qty then d.buy_amt / d.buy_qty else 0
  let current_sale_price := if 0 < qty then amt / qty else 0
  let profit := (current_sale_price - avg_buy_before) * qty
  ({ d with realized_pl := d.realized_pl + profit,
            sell_qty := d.sell_qty + qty, sell_amt := d.sell_amt + amt }, profit)

/-- One iteration of the aggregation loop (lines 248–283): the length guard,
the unguarded `row[idx]` accesses for code/name/action (an out-of-range name
index would raise `IndexError` and abort the whole aggregation), the guarded
numeric parses whose `except Exception: continue` skips the row, entry
creation, name refresh, and the BUY/SELL/neutral branches. -/
def aggStep (ix : AggIx) (s : AggState) (row : List String) : Except PyErr AggState :=
  if row.length ≤ max (max ix.code ix.action) (max ix.qty ix.amt) then .ok s
  else
    match row.get? ix.code, row.get? ix.name, row.get? ix.action with
    | some code0, some name0, some action0 =>
      let code := pyStrip code0
      let name := pyStrip name0
      let action := pyUpper (pyStrip action0)
      match (row.get? ix.qty).bind (fun v => pyFloat (stripCommas v)),
            (row.get? ix.amt).bind (fun v => pyFloat (stripCommas v)) with
      | some qty, some amt =>
        let d0 := (lookupEntry s.pf code).getD { name := name }
        let d1 := if name ≠ "" then { d0 with name := name } else d0
        if hasSub "BUY" action || hasSub "買" action then
          .ok { pf := setEntry s.pf code (applyBuy d1 qty amt),
                total_realized := s.total_realized }
        else if hasSub "SELL" action || hasSub "賣" action then
          .ok { pf := setEntry s.pf code (applySell d1 qty amt).1,
                total_realized := s.total_realized + (applySell d1 qty amt).2 }
        else
          .ok { pf := setEntry s.pf code d1, total_realized := s.total_realized }
      | _, _ => .ok s
    | _, _, _ => .error .indexError

/-- One dashboard holdings row (lines 310–319; the live-price and
spreadsheet-formula cells are presentation values supplied by external
collaborators and are not part of the aggregator's state). -/
structure SummaryRow where
  code : String
  name : String
  net_qty : ℚ
  avg_buy : ℚ
  realized_pl : ℚ
deriving DecidableEq

/-- Lines 299–320: the holdings table, one row per symbol in sorted key
order, a symbol included only if `net_qty > 0 or realized_pl != 0`; paired
with the final `total_realized_pl`. -/
def buildSummary (st : AggState) : List SummaryRow × ℚ :=
  ((sortCodes (st.pf.map Prod.fst)).filterMap fun code =>
    match lookupEntry st.pf code with
    | none => none
    | some d =>
      if 0 < netQty d ∨ d.realized_pl ≠ 0 then
        some ⟨code, d.name, netQty d, avgBuy d, d.realized_pl⟩
      else none,
   st.total_realized)

/-- `update_portfolio_summary` (lines 216–320, aggregation part): requires a
header row plus at least one data row, resolves column indices, folds the
data rows, and builds the holdings summary.  `none` models both the early
`return` (fewer than two rows) and an uncaught loop exception reaching the
outer `except` (no dashboard produced). -/
def update_portfolio_summary (rows : List (List String)) : Option (List SummaryRow × ℚ) :=
  match rows with
  | [] => none
  | headers :: dataRows =>
    if dataRows.isEmpty then none
    else
      match dataRows.foldlM (aggStep (mkIx headers)) ⟨[], 0⟩ with
      | .ok st => some (buildSummary st)
      | .error _ => none

/-- The value a non-aborting row iteration contributes: `some` trade or a
skip. -/
def rowTrade (reportDate : String) (texts : List String) : Option Trade :=
  match fubonRowStep reportDate texts with
  | .ok o => o
  | .error _ => none

lemma fubonRowTry_ne_other (reportDate : String) (texts : List String) :
    fubonRowTry reportDate texts ≠ .error .otherError := by
  simp only [fubonRowTry]
  (repeat' split) <;> intro h <;> simp_all

lemma fubonRowStep_eq_ok (reportDate : String) (texts : List String) :
    fubonRowStep reportDate texts = .ok (rowTrade reportDate texts) := by
  unfold rowTrade fubonRowStep
  (repeat' split) <;> simp_all [fubonRowTry_ne_other reportDate texts]

lemma foldl_fubon_rows (reportDate : String) :
    ∀ (rows : List (List String)) (acc : List Trade),
      rows.foldlM
        (fun acc row => (fubonRowStep reportDate row).map (fun o => acc ++ o.toList)) acc =
        .ok (acc ++ rows.filterMap (rowTrade reportDate)) := by
  intro rows
  induction rows with
  | nil => intro acc; show Except.ok acc = _; simp
  | cons r rs ih =>
    intro acc
    rw [List.foldlM_cons, fubonRowStep_eq_ok]
    show List.foldlM
        (fun acc row => (fubonRowStep reportDate row).map (fun o => acc ++ o.toList))
        (acc ++ (rowTrade reportDate r).toList) rs = _
    rw [ih, List.filterMap_cons]
    cases h : rowTrade reportDate r <;> simp [h, List.append_assoc]

lemma parseFubonTry_eq (subject : String) (rows : List (List String)) :
    parseFubonTry subject rows =
      .ok (match extractFubonDate subject with
           | none => []
           | some d => rows.filterMap (rowTrade d)) := by
  unfold parseFubonTry
  cases h : extractFubonDate subject with
  | none => rfl
  | some d =>
    show rows.foldlM
        (fun acc row => (fubonRowStep d row).map (fun o => acc ++ o.toList)) [] = _
    rw [foldl_fubon_rows d rows []]
    rw [List.nil_append]

lemma parseFubonReport_eq (subject : String) (rows : List (List String)) :
    parseFubonReport subject rows =
      match extractFubonDate subject with
      | none => []
      | some d => rows.filterMap (rowTrade d) := by
  unfold parseFubonReport
  rw [parseFubonTry_eq]

lemma mkTrade_eq_some {symbol : String} {stock_name : Option String} {side : String}
    {quantity price : ℚ} {date : Option PyDateTime} {total? : Option ℚ}
    {order_id : Option String} {broker : String} {t : Trade} :
    mkTrade symbol stock_name side quantity price date total? order_id broker = some t ↔
      0 < quantity ∧ 0 < price ∧
        t = ⟨symbol, stock_name, side, quantity, price, date,
          total?.getD (round2 (quantity * price)), broker, order_id⟩ := by
  unfold mkTrade
  split
  · rename_i hpos
    constructor
    · intro h
      exact ⟨hpos.1, hpos.2, (Option.some_inj.mp h).symm⟩
    · rintro ⟨_, _, ht⟩
      rw [ht]
  · rename_i hneg
    constructor
    · intro h
      cases h
    · rintro ⟨h1, h2, _⟩
      exact absurd ⟨h1, h2⟩ hneg

lemma tryLabs_prop {P : String → Prop} {capk : List Char → Option String}
    (hk : ∀ rest s, capk rest = some s → P s) :
    ∀ (labels : List (List Char)) (cs : List Char) (r : String),
      tryLabs capk labels cs = some r → P r := by
  intro labels
  induction labels with
  | nil => intro cs r h; simp [tryLabs] at h
  | cons l ls ih =>
    intro cs r h
    unfold tryLabs at h
    split at h
    · rename_i heq
      cases hc : ciPre l cs with
      | none => rw [hc] at heq; simp at heq
      | some rest =>
        rw [hc] at heq
        simp only [Option.some_bind] at heq
        cases h; exact hk rest r heq
    · exact ih _ r h

lemma searchField_prop {P : String → Prop} {capk : List Char → Option String}
    (hk : ∀ rest s, capk rest = some s → P s) :
    ∀ (cs : List Char) (labels : List (List Char)) (r : String),
      searchField labels capk cs = some r → P r := by
  intro cs
  induction cs with
  | nil => intro labels r h; simp [searchField] at h
  | cons c cs ih =>
    intro labels r h
    unfold searchField at h
    split at h
    · cases h; exact tryLabs_prop hk _ _ _ (by assumption)
    · exact ih _ r h

lemma sideTokAt_upper {r1 : List Char} {s : String} (h : sideTokAt r1 = some s) :
    pyUpper s = "BUY" ∨ pyUpper s = "SELL" := by
  unfold sideTokAt at h
  split at h
  · split at h
    · rename_i hc
      injection h with h2
      subst h2
      simp only [ci2, Bool.and_eq_true, Bool.or_eq_true, decide_eq_true_eq] at hc
      obtain ⟨⟨h1, h2'⟩, h3⟩ := hc
      left
      rcases h1 with rfl | rfl <;> rcases h2' with rfl | rfl <;> rcases h3 with rfl | rfl <;> decide
    · split at h
      · rename_i hc
        injection h with h2
        subst h2
        simp only [ci2, Bool.and_eq_true, Bool.or_eq_true, decide_eq_true_eq] at hc
        obtain ⟨⟨⟨h1, h2'⟩, h3⟩, h4⟩ := hc
        right
        rcases h1 with rfl | rfl <;> rcases h2' with rfl | rfl <;> rcases h3 with rfl | rfl <;>
          rcases h4 with rfl | rfl <;> decide
      · simp at h
  · split at h
    · rename_i hc
      injection h with h2
      subst h2
      simp only [ci2, Bool.and_eq_true, Bool.or_eq_true, decide_eq_true_eq] at hc
      obtain ⟨⟨h1, h2'⟩, h3⟩ := hc
      left
      rcases h1 with rfl | rfl <;> rcases h2' with rfl | rfl <;> rcases h3 with rfl | rfl <;> decide
    · simp at h
  · simp at h

lemma lookup_setEntry (pf : List (String × SymEntry)) (k : String) (e : SymEntry)
    (c : String) :
    lookupEntry (setEntry pf k e) c = if k = c then some e else lookupEntry pf c := by
  induction pf with
  | nil =>
    unfold setEntry lookupEntry
    simp only [List.find?]
    by_cases hkc : k = c
    · have hb : (k == c) = true := by simpa using hkc
      simp [hb, hkc]
    · have hb : (k == c) = false := by simpa using hkc
      simp [hb, hkc]
  | cons p rest ih =>
    obtain ⟨a, x⟩ := p
    unfold setEntry
    by_cases hak : a = k
    · simp only [hak, beq_self_eq_true, if_true]
      unfold lookupEntry
      simp only [List.find?]
      by_cases hkc : k = c
      · simp [hkc]
      · have : (k == c) = false := by simpa using hkc
        simp [this, hkc]
    · have hak' : (a == k) = false := by simpa using hak
      simp only [hak', Bool.false_eq_true, if_false]
      unfold lookupEntry
      simp only [List.find?]
      by_cases hac : a = c
      · have : (a == c) = true := by simpa using hac
        simp only [this]
        have hkc : ¬(k = c) := fun h => hak (h ▸ hac.symm ▸ rfl)
        simp [hkc]
      · have : (a == c) = false := by simpa using hac
        simp only [this]
        exact ih

lemma mem_insSorted (a c : String) (l : List String) :
    a ∈ insSorted c l ↔ a = c ∨ a ∈ l := by
  induction l with
  | nil => simp [insSorted]
  | cons x xs ih =>
    unfold insSorted
    split
    · simp [or_assoc, or_comm, or_left_comm]
    · simp only [List.mem_cons, ih]
      tauto

lemma mem_sortCodes (a : String) (l : List String) : a ∈ sortCodes l ↔ a ∈ l := by
  induction l with
  | nil => simp [sortCodes]
  | cons x xs ih =>
    unfold sortCodes at ih ⊢
    simp only [List.foldr_cons, mem_insSorted, ih, List.mem_cons]

lemma length_filterMap_countP {α β : Type} (f : α → Option β) (l : List α) :
    (l.filterMap f).length = l.countP (fun a => (f a).isSome) := by
  induction l with
  | nil => simp
  | cons x xs ih =>
    rw [List.filterMap_cons, List.countP_cons]
    cases h : f x <;> simp [h, ih]

lemma lookupEntry_mem_keys {pf : List (String × SymEntry)} {code : String} {e : SymEntry}
    (h : lookupEntry pf code = some e) : code ∈ pf.map Prod.fst := by
  unfold lookupEntry at h
  cases hf : pf.find? (fun p => p.1 == code) with
  | none => rw [hf] at h; cases h
  | some p =>
    rw [hf] at h
    have hmem := List.mem_of_find?_eq_some hf
    have hpr := List.find?_some hf
    have : p.1 = code := by simpa using hpr
    exact this ▸ List.mem_map_of_mem Prod.fst hmem

lemma mem_keys_lookupEntry {pf : List (String × SymEntry)} {code : String}
    (h : code ∈ pf.map Prod.fst) : ∃ e, lookupEntry pf code = some e := by
  induction pf with
  | nil => simp at h
  | cons p rest ih =>
    unfold lookupEntry
    simp only [List.find?]
    by_cases hpc : p.1 = code
    · have : (p.1 == code) = true := by simpa using hpc
      simp [this]
    · have hb : (p.1 == code) = false := by simpa using hpc
      simp only [hb]
      apply ih
      simp only [List.map_cons, List.mem_cons] at h
      exact h.resolve_left (fun hh => hpc hh.symm)

attribute [local semireducible] Rat.add Rat.sub Rat.mul Rat.inv

/-- The ledger header row written by `_ensure_headers` (lines 105–108 of
`sheets_ledger.py`). -/
def stdHeaders : List String :=
  ["Trade Time", "Stock Code", "Stock Name", "Action", "Shares", "Unit Price",
   "Total Amount", "Order ID", "Broker"]

/-- BUY 100 shares at unit price 10 (total amount 1000). -/
def c1BuyRow : List String :=
  ["2026-01-19 09:00:00", "2330", "TSMC", "BUY", "100", "10", "1000", "A1", "B"]

/-- SELL 40 shares at unit price 15 (total amount 600). -/
def c1SellRow : List String :=
  ["2026-01-19 10:00:00", "2330", "TSMC", "SELL", "40", "15", "600", "A2", "B"]

/-- C1: at every point the average buy cost used by the aggregator is
cumulative bought amount divided by cumulative bought quantity (zero when
nothing was bought yet), each SELL row adds
(sale unit price − average buy cost at that point) × sale quantity to the
symbol's realized P/L (and to the process-wide total), and on the two-row
input BUY 100@10 then SELL 40@15 the output has average buy cost 10,
realized P/L 200 and net quantity 60. -/
theorem c1_weighted_average_realized_pl :
    (∀ (d : SymEntry) (qty amt : ℚ), 0 < qty →
      (applySell d qty amt).1.realized_pl = d.realized_pl + (amt / qty - avgBuy d) * qty ∧
      (applySell d qty amt).2 = (amt / qty - avgBuy d) * qty) ∧
    (∀ d : SymEntry, avgBuy d = if 0 < d.buy_qty then d.buy_amt / d.buy_qty else 0) ∧
    update_portfolio_summary [stdHeaders, c1BuyRow, c1SellRow] =
      some ([⟨"2330", "TSMC", 60, 10, 200⟩], 200) := by
  refine ⟨?_, ?_, ?_⟩
  · intro d qty amt hq
    unfold applySell avgBuy
    rw [if_pos hq]
    exact ⟨rfl, rfl⟩
  · intro d
    rfl
  · decide

/-- C1 witness: the SELL-step formula evaluated at a concrete state. -/
theorem c1_weighted_average_realized_pl_witness :
    (applySell { name := "T", buy_qty := 100, buy_amt := 1000 } 40 600).1.realized_pl =
      0 + (600 / 40 - avgBuy { name := "T", buy_qty := 100, buy_amt := 1000 }) * 40 :=
  (c1_weighted_average_realized_pl.1 { name := "T", buy_qty := 100, buy_amt := 1000 } 40 600
    (by norm_num)).1

/-- Subject and table row of the worked Fubon example. -/
def c2Subject : String := "富邦證券 成交通知 2026年1月19日"

/-- The worked example's table row. -/
def c2Row : List String := ["2344華邦電", "現賣", "50", "117.00", "X", "ABC123", "09:40:05"]

/-- C2: on subject `富邦證券 … 2026年1月19日` and the row
`["2344華邦電","現賣","50","117.00","X","ABC123","09:40:05"]` the tabular
extractor yields exactly the TradeRecord of the claim: symbol 2344, name
華邦電, side SELL, quantity 50, price 117, total amount 5850, order id
ABC123, timestamp 2026-01-19 09:40:05. -/
theorem c2_fubon_worked_example :
    parseFubonReport c2Subject [c2Row] =
      [⟨"2344", some "華邦電", "SELL", 50, 117, some ⟨2026, 1, 19, 9, 40, 5⟩, 5850,
        "Fubon Securities (富邦證券)", some "ABC123"⟩] := by
  decide

/-- C5: whenever the subject yields a report date, the tabular extractor
returns exactly the per-row extraction results of the valid rows, in row
order with no sorting (invalid rows — too few cells, marker rows,
non-numeric quantity/price, or any other per-row failure — contribute
nothing), so with N valid and M invalid rows interleaved it returns exactly
N records. -/
theorem c5_row_order_preserved (subject : String) (rows : List (List String)) (d : String)
    (hd : extractFubonDate subject = some d) :
    parseFubonReport subject rows = rows.filterMap (rowTrade d) ∧
    (parseFubonReport subject rows).length = rows.countP (fun r => (rowTrade d r).isSome) := by
  have h1 : parseFubonReport subject rows = rows.filterMap (rowTrade d) := by
    rw [parseFubonReport_eq, hd]
  exact ⟨h1, by rw [h1]; exact length_filterMap_countP _ _⟩

/-- Subject for the C5 witness. -/
def c5Subject : String := "富邦證券 2026年1月19日"

/-- Two valid rows interleaved with four invalid ones (header row, short row,
disclaimer row, non-numeric quantity row). -/
def c5Rows : List (List String) :=
  [["股票名稱", "類別", "股數", "單價", "x", "委託書", "時間"],
   ["2344華邦電", "現賣", "50", "117.00", "X", "ABC123", "09:40:05"],
   ["short", "row"],
   ["2330台積電", "現買", "10", "600", "X", "DEF456", "10:00:00"],
   ["以上資料僅供參考", "a", "b", "c", "d", "e", "f"],
   ["noise", "現買", "abc", "600", "X", "G", "10:00:00"]]

/-- C5 witness: the theorem applied to a concrete interleaved report; the two
valid rows give exactly two records. -/
theorem c5_row_order_preserved_witness :
    parseFubonReport c5Subject c5Rows = c5Rows.filterMap (rowTrade "2026-01-19") ∧
    (parseFubonReport c5Subject c5Rows).length =
      c5Rows.countP (fun r => (rowTrade "2026-01-19" r).isSome) ∧
    c5Rows.countP (fun r => (rowTrade "2026-01-19" r).isSome) = 2 :=
  ⟨(c5_row_order_preserved c5Subject c5Rows "2026-01-19" (by decide)).1,
   (c5_row_order_preserved c5Subject c5Rows "2026-01-19" (by decide)).2,
   by decide⟩

/-- C7: for every subject, body and table input the extraction engine
terminates with a value and propagates no exception: in the exception monad
the engine always returns `ok`, and the value is the list `parse` returns. -/
theorem c7_parse_never_raises (subject body : String) (rows : List (List String)) :
    parseM subject body rows = Except.ok (parse subject body rows) := by
  unfold parseM parse
  split
  · have h := parseFubonTry_eq subject rows
    rw [h]
    unfold exceptAll parseFubonReport
    rw [h]
  · unfold parseRegexCaught
    cases hr : parseRegexTry body with
    | ok o => unfold exceptAll; cases o <;> rfl
    | error e => unfold exceptAll; rfl

/-- Subject with the broker marker but no extractable date. -/
def c8Subject : String := "富邦證券 成交通知"

/-- A valid data row (would parse if a date were available). -/
def c8Row : List String := ["2344華邦電", "現賣", "50", "117.00", "X", "ABC123", "09:40:05"]

/-- C8: if no year/month/day date can be extracted from the subject, the
tabular extractor returns the empty list for the whole message — no row of
the body produces a record. -/
theorem c8_missing_date_aborts (subject : String) (rows : List (List String))
    (h : extractFubonDate subject = none) :
    parseFubonReport subject rows = [] := by
  rw [parseFubonReport_eq, h]

/-- C8 witness: a dateless Fubon subject with a perfectly valid data row
still yields no records. -/
theorem c8_missing_date_aborts_witness : parseFubonReport c8Subject [c8Row] = [] :=
  c8_missing_date_aborts c8Subject [c8Row] (by decide)

/-- First BUY of the order-sensitivity example: 100 shares for 1000. -/
def c9RowB1 : List String := ["t1", "2330", "TSMC", "BUY", "100", "10", "1000", "o1", "b"]

/-- Second BUY of the order-sensitivity example: 100 shares for 2000. -/
def c9RowB2 : List String := ["t2", "2330", "TSMC", "BUY", "100", "20", "2000", "o2", "b"]

/-- The SELL of the order-sensitivity example: 100 shares for 1500. -/
def c9RowS : List String := ["t3", "2330", "TSMC", "SELL", "100", "15", "1500", "o3", "b"]

/-- C9: the aggregator is order-sensitive: the same multiset of rows in two
different orders (sell after both buys vs. sell between the buys) produces
different realized P/L totals, 0 versus 500. -/
theorem c9_order_sensitivity :
    [c9RowB1, c9RowB2, c9RowS].Perm [c9RowB1, c9RowS, c9RowB2] ∧
    update_portfolio_summary (stdHeaders :: [c9RowB1, c9RowB2, c9RowS]) ≠
      update_portfolio_summary (stdHeaders :: [c9RowB1, c9RowS, c9RowB2]) ∧
    (update_portfolio_summary (stdHeaders :: [c9RowB1, c9RowB2, c9RowS])).map Prod.snd =
      some 0 ∧
    (update_portfolio_summary (stdHeaders :: [c9RowB1, c9RowS, c9RowB2])).map Prod.snd =
      some 500 :=
  ⟨List.Perm.cons c9RowB1 (List.Perm.swap c9RowS c9RowB2 []),
   by decide, by decide, by decide⟩

/-- A SELL-only row with zero amount: net quantity becomes −10 while realized
P/L stays 0. -/
def c3Row : List String := ["t", "X", "N", "SELL", "10", "0", "0", "i", "b"]

/-- C3 counterexample: after processing a single SELL of 10 shares with
amount 0, symbol X has net quantity −10 (non-zero) and realized P/L 0, yet
the summary output is empty — the code's filter is `net_qty > 0`, not
`net_qty ≠ 0`, so the claim's "non-zero net quantity implies inclusion" is
false. -/
theorem c3_counterexample :
    update_portfolio_summary [stdHeaders, c3Row] = some ([], 0) ∧
    [c3Row].foldlM (aggStep (mkIx stdHeaders)) ⟨[], 0⟩ =
      Except.ok ⟨[("X", { name := "N", sell_qty := 10 })], 0⟩ ∧
    netQty { name := "N", sell_qty := 10 } = -10 := by
  refine ⟨by decide, by rfl, by decide⟩

/-- C3 (amended): a symbol appears in the summary output iff its entry has
positive net quantity or non-zero realized P/L; and whenever the fold over
the data rows succeeds, the output of `update_portfolio_summary` is exactly
the summary built from the final fold state. -/
theorem c3_output_membership :
    (∀ (st : AggState) (code : String),
      (∃ r ∈ (buildSummary st).1, r.code = code) ↔
        ∃ e, lookupEntry st.pf code = some e ∧ (0 < netQty e ∨ e.realized_pl ≠ 0)) ∧
    (∀ (headers : List String) (dataRows : List (List String)) (st : AggState),
      dataRows ≠ [] →
      dataRows.foldlM (aggStep (mkIx headers)) ⟨[], 0⟩ = Except.ok st →
      update_portfolio_summary (headers :: dataRows) = some (buildSummary st)) := by
  constructor
  · intro st code
    unfold buildSummary
    simp only [List.mem_filterMap]
    constructor
    · rintro ⟨r, ⟨key, hkey, hf⟩, hcode⟩
      cases hl : lookupEntry st.pf key with
      | none => rw [hl] at hf; cases hf
      | some d =>
        rw [hl] at hf
        dsimp only at hf
        by_cases hcond : 0 < netQty d ∨ d.realized_pl ≠ 0
        · rw [if_pos hcond] at hf
          injection hf with hf
          subst hf
          simp only at hcode
          subst hcode
          exact ⟨d, hl, hcond⟩
        · rw [if_neg hcond] at hf
          cases hf
    · rintro ⟨e, hl, hcond⟩
      refine ⟨⟨code, e.name, netQty e, avgBuy e, e.realized_pl⟩, ⟨code, ?_, ?_⟩, rfl⟩
      · rw [mem_sortCodes]
        exact lookupEntry_mem_keys hl
      · rw [hl]
        dsimp only
        rw [if_pos hcond]
  · intro headers dataRows st hne hfold
    unfold update_portfolio_summary
    have hie : dataRows.isEmpty = false := by
      cases dataRows with
      | nil => exact absurd rfl hne
      | cons a l => rfl
    dsimp only
    rw [hie]
    simp only [Bool.false_eq_true, if_false]
    rw [hfold]

/-- A single BUY row for the C3 witness. -/
def c3WitRow : List String := ["t", "2330", "TSMC", "BUY", "100", "10", "1000", "A1", "B"]

/-- C3 witness: the amended theorem applied to a one-row ledger. -/
theorem c3_output_membership_witness :
    update_portfolio_summary [stdHeaders, c3WitRow] =
      some (buildSummary ⟨[("2330", { name := "TSMC", buy_qty := 100, buy_amt := 1000 })], 0⟩) :=
  c3_output_membership.2 stdHeaders [c3WitRow]
    ⟨[("2330", { name := "TSMC", buy_qty := 100, buy_amt := 1000 })], 0⟩
    (by decide) (by rfl)

/-- A key-value text whose four required fields are all located and parse as
numbers, but whose quantity is 0. -/
def c4Text : String := "Symbol: AAPL Side: BUY Quantity: 0 Price: 10"

/-- C4 counterexample: on `c4Text` all four required fields are located and
both numeric fields parse (quantity 0, price 10), yet the extractor returns
no record — pydantic's `gt=0` validation on quantity raises inside the
`try`, so "located and parses" does not imply "exactly one record". -/
theorem c4_counterexample :
    locSymbol c4Text = some "AAPL" ∧ locSide c4Text = some "BUY" ∧
    locQty c4Text = some "0" ∧ locPrice c4Text = some "10" ∧
    pyFloat (stripCommas "0") = some 0 ∧ pyFloat (stripCommas "10") = some 10 ∧
    parseRegexCaught c4Text = none := by
  decide

/-- C4 (amended): the regex extractor returns exactly one record iff all
four of symbol, side, quantity, price are located, both numeric fields parse
after comma stripping, and the parsed quantity and price are positive; the
record's fields are the located texts with symbol and side upper-cased, the
parsed numbers, the derived total, and the optionally located order id. -/
theorem c4_regex_single_record (text : String) :
    (∀ sy sd q p qv pv,
      locSymbol text = some sy → locSide text = some sd →
      locQty text = some q → locPrice text = some p →
      pyFloat (stripCommas q) = some qv → pyFloat (stripCommas p) = some pv →
      0 < qv → 0 < pv →
      parseRegexCaught text =
        some ⟨pyUpper sy, none, pyUpper sd, qv, pv, none, round2 (qv * pv), "Unknown",
          locOrderId text⟩) ∧
    ((parseRegexCaught text).isSome = true ↔
      ∃ sy sd q p qv pv,
        locSymbol text = some sy ∧ locSide text = some sd ∧
        locQty text = some q ∧ locPrice text = some p ∧
        pyFloat (stripCommas q) = some qv ∧ pyFloat (stripCommas p) = some pv ∧
        0 < qv ∧ 0 < pv) := by
  have hfwd : ∀ sy sd q p qv pv,
      locSymbol text = some sy → locSide text = some sd →
      locQty text = some q → locPrice text = some p →
      pyFloat (stripCommas q) = some qv → pyFloat (stripCommas p) = some pv →
      0 < qv → 0 < pv →
      parseRegexCaught text =
        some ⟨pyUpper sy, none, pyUpper sd, qv, pv, none, round2 (qv * pv), "Unknown",
          locOrderId text⟩ := by
    intro sy sd q p qv pv h1 h2 h3 h4 h5 h6 hq hp
    have hmk : mkTrade (pyUpper sy) none (pyUpper sd) qv pv none none (locOrderId text)
        "Unknown" =
        some ⟨pyUpper sy, none, pyUpper sd, qv, pv, none, round2 (qv * pv), "Unknown",
          locOrderId text⟩ := mkTrade_eq_some.mpr ⟨hq, hp, rfl⟩
    unfold parseRegexCaught parseRegexTry
    rw [h1, h2, h3, h4]
    dsimp only
    rw [h5, h6]
    dsimp only
    rw [hmk]
  refine ⟨hfwd, ?_, ?_⟩
  · intro hs
    unfold parseRegexCaught parseRegexTry at hs
    cases h1 : locSymbol text with
    | none => rw [h1] at hs; simp at hs
    | some sy =>
    cases h2 : locSide text with
    | none => rw [h1, h2] at hs; simp at hs
    | some sd =>
    cases h3 : locQty text with
    | none => rw [h1, h2, h3] at hs; simp at hs
    | some q =>
    cases h4 : locPrice text with
    | none => rw [h1, h2, h3, h4] at hs; simp at hs
    | some p =>
    rw [h1, h2, h3, h4] at hs
    dsimp only at hs
    cases h5 : pyFloat (stripCommas q) with
    | none => rw [h5] at hs; simp at hs
    | some qv =>
    cases h6 : pyFloat (stripCommas p) with
    | none => rw [h5, h6] at hs; simp at hs
    | some pv =>
    rw [h5, h6] at hs
    dsimp only at hs
    cases hmk : mkTrade (pyUpper sy) none (pyUpper sd) qv pv none none (locOrderId text)
        "Unknown" with
    | none => rw [hmk] at hs; simp at hs
    | some t =>
      obtain ⟨hq, hp, _⟩ := mkTrade_eq_some.mp hmk
      exact ⟨sy, sd, q, p, qv, pv, rfl, rfl, rfl, rfl, h5, h6, hq, hp⟩
  · rintro ⟨sy, sd, q, p, qv, pv, h1, h2, h3, h4, h5, h6, hq, hp⟩
    rw [hfwd sy sd q p qv pv h1 h2 h3 h4 h5 h6 hq hp]
    rfl

/-- A valid key-value text for the C4 witness (lower-case field values,
thousands separator, dollar sign). -/
def c4WitText : String := "Symbol: msft Side: sell Quantity: 1,000 Price: $12.5"

/-- C4 witness: the amended theorem applied to `c4WitText`. -/
theorem c4_regex_single_record_witness :
    parseRegexCaught c4WitText =
      some ⟨pyUpper "msft", none, pyUpper "sell", 1000, 25 / 2, none,
        round2 (1000 * (25 / 2)), "Unknown", locOrderId c4WitText⟩ :=
  (c4_regex_single_record c4WitText).1 "msft" "sell" "1,000" "12.5" 1000 (25 / 2)
    (by decide) (by decide) (by decide) (by decide) (by decide) (by decide)
    (by decide) (by decide)

lemma locSide_upper {text sd : String} (h : locSide text = some sd) :
    pyUpper sd = "BUY" ∨ pyUpper sd = "SELL" := by
  unfold locSide at h
  exact searchField_prop (fun rest s hs => sideTokAt_upper hs) _ _ _ h

lemma rowTrade_props {d : String} {r : List String} {t : Trade}
    (h : rowTrade d r = some t) :
    (t.side = "BUY" ∨ t.side = "SELL") ∧ 0 < t.quantity ∧ 0 < t.price ∧
    t.total_amount = round2 (t.quantity * t.price) := by
  unfold rowTrade at h
  cases hstep : fubonRowStep d r with
  | error e => rw [hstep] at h; cases h
  | ok o =>
    rw [hstep] at h
    subst h
    unfold fubonRowStep at hstep
    split at hstep
    · cases hstep
    · split at hstep
      · cases hstep
      · split at hstep
        · cases hstep
        · split at hstep
          · rename_i t' heq
            injection hstep with hstep
            injection hstep with hstep
            subst hstep
            simp only [fubonRowTry] at heq
            split at heq
            · split at heq
              · cases heq
              · rename_i ts hts
                split at heq
                · rename_i t'' hmk
                  injection heq with heq
                  subst heq
                  obtain ⟨hq, hp, ht⟩ := mkTrade_eq_some.mp hmk
                  subst ht
                  refine ⟨?_, hq, hp, rfl⟩
                  dsimp only
                  split
                  · right; rfl
                  · left; rfl
                · cases heq
            · cases heq
          · cases hstep
          · cases hstep
          · cases hstep

lemma parseRegexCaught_props {text : String} {t : Trade}
    (h : parseRegexCaught text = some t) :
    (t.side = "BUY" ∨ t.side = "SELL") ∧ 0 < t.quantity ∧ 0 < t.price ∧
    t.total_amount = round2 (t.quantity * t.price) := by
  unfold parseRegexCaught parseRegexTry at h
  split at h
  · rename_i o heq
    subst h
    split at heq
    · rename_i sy sd q p
      split at heq
      · rename_i qv pv hqv hpv
        split at heq
        · rename_i t' hmk
          injection heq with heq
          injection heq with heq
          subst heq
          obtain ⟨hq, hp, ht⟩ := mkTrade_eq_some.mp hmk
          subst ht
          refine ⟨?_, hq, hp, rfl⟩
          exact locSide_upper (by assumption)
        · cases heq
      · cases heq
    · cases heq
  · cases h

/-- C6: every trade produced by the extraction engine has side BUY or SELL,
positive quantity and price, and a derived total amount equal to
round(quantity × price, 2), fixed once at construction (the record is
immutable). -/
theorem c6_trade_invariants (subject body : String) (rows : List (List String)) (t : Trade)
    (hmem : t ∈ parse subject body rows) :
    (t.side = "BUY" ∨ t.side = "SELL") ∧ 0 < t.quantity ∧ 0 < t.price ∧
    t.total_amount = round2 (t.quantity * t.price) := by
  unfold parse at hmem
  split at hmem
  · rw [parseFubonReport_eq] at hmem
    cases hd : extractFubonDate subject with
    | none => rw [hd] at hmem; cases hmem
    | some d =>
      rw [hd] at hmem
      dsimp only at hmem
      obtain ⟨r, _, hr⟩ := List.mem_filterMap.mp hmem
      exact rowTrade_props hr
  · cases hc : parseRegexCaught body with
    | none => rw [hc] at hmem; cases hmem
    | some t' =>
      rw [hc] at hmem
      dsimp only at hmem
      rw [List.mem_singleton] at hmem
      subst hmem
      exact parseRegexCaught_props hc

/-- C6 witness: the invariants evaluated on a concrete extracted trade. -/
theorem c6_trade_invariants_witness :
    ((⟨"2344", some "華邦電", "SELL", 50, 117, some ⟨2026, 1, 19, 9, 40, 5⟩, 5850,
        "Fubon Securities (富邦證券)", some "ABC123"⟩ : Trade).side = "BUY" ∨
      (⟨"2344", some "華邦電", "SELL", 50, 117, some ⟨2026, 1, 19, 9, 40, 5⟩, 5850,
        "Fubon Securities (富邦證券)", some "ABC123"⟩ : Trade).side = "SELL") ∧
    (0 : ℚ) < 50 ∧ (0 : ℚ) < 117 ∧ (5850 : ℚ) = round2 (50 * 117) :=
  c6_trade_invariants c2Subject "" [c2Row]
    ⟨"2344", some "華邦電", "SELL", 50, 117, some ⟨2026, 1, 19, 9, 40, 5⟩, 5850,
      "Fubon Securities (富邦證券)", some "ABC123"⟩
    (by rw [show parse c2Subject "" [c2Row] = parseFubonReport c2Subject [c2Row] from rfl,
          c2_fubon_worked_example]; exact List.mem_singleton.mpr rfl)

/-- The five numeric accumulators of a symbol's entry (zeros when the symbol
has no entry), used to state frame conditions. -/
def entryNums (pf : List (String × SymEntry)) (code : String) : ℚ × ℚ × ℚ × ℚ × ℚ :=
  ((((lookupEntry pf code).getD { name := "" }).buy_qty,
    ((lookupEntry pf code).getD { name := "" }).buy_amt,
    ((lookupEntry pf code).getD { name := "" }).sell_qty,
    ((lookupEntry pf code).getD { name := "" }).sell_amt,
    ((lookupEntry pf code).getD { name := "" }).realized_pl))

/-- C10: a processed row whose upper-cased action label contains none of
"BUY", "買", "SELL", "賣" leaves the process-wide realized total and every
symbol's five numeric accumulators exactly unchanged (at most a display name
is created or refreshed). -/
theorem c10_neutral_action_frame (ix : AggIx) (s : AggState) (row : List String)
    (st' : AggState) (hstep : aggStep ix s row = Except.ok st')
    (hbuy : hasSub "BUY" (pyUpper (pyStrip ((row.get? ix.action).getD ""))) = false)
    (hbuyZh : hasSub "買" (pyUpper (pyStrip ((row.get? ix.action).getD ""))) = false)
    (hsell : hasSub "SELL" (pyUpper (pyStrip ((row.get? ix.action).getD ""))) = false)
    (hsellZh : hasSub "賣" (pyUpper (pyStrip ((row.get? ix.action).getD ""))) = false) :
    st'.total_realized = s.total_realized ∧
    ∀ code : String, entryNums st'.pf code = entryNums s.pf code := by
  unfold aggStep at hstep
  split at hstep
  · injection hstep with hstep
    subst hstep
    exact ⟨rfl, fun _ => rfl⟩
  · split at hstep
    · rename_i code0 name0 action0 hcode hname haction
      rw [haction] at hbuy hbuyZh hsell hsellZh
      simp only [Option.getD_some] at hbuy hbuyZh hsell hsellZh
      split at hstep
      · rename_i qty amt hqty hamt
        dsimp only at hstep
        rw [hbuy, hbuyZh] at hstep
        simp only [Bool.or_self, Bool.false_eq_true, if_false] at hstep
        rw [hsell, hsellZh] at hstep
        simp only [Bool.or_self, Bool.false_eq_true, if_false] at hstep
        injection hstep with hstep
        subst hstep
        refine ⟨rfl, ?_⟩
        intro code
        dsimp only
        by_cases hc : pyStrip code0 = code
        · subst hc
          unfold entryNums
          rw [lookup_setEntry, if_pos rfl]
          cases hl : lookupEntry s.pf (pyStrip code0) with
          | none => split <;> rfl
          | some e => split <;> rfl
        · unfold entryNums
          rw [lookup_setEntry, if_neg hc]
      · injection hstep with hstep
        subst hstep
        exact ⟨rfl, fun _ => rfl⟩
    · cases hstep

/-- The concrete neutral row of the C10 witness. -/
def c10Row : List String := ["t", "2330", "TSMC", "HOLD", "5", "5", "25", "o", "b"]

/-- C10 witness: processing the neutral HOLD row from the empty state creates
only a named entry whose accumulators all equal the absent-entry zeros, and
leaves the realized total at 0. -/
theorem c10_neutral_action_frame_witness :
    ((⟨[("2330", { name := "TSMC" })], 0⟩ : AggState).total_realized =
      (⟨[], 0⟩ : AggState).total_realized) ∧
    entryNums [("2330", { name := "TSMC" })] "2330" = entryNums [] "2330" :=
  ⟨(c10_neutral_action_frame (mkIx stdHeaders) ⟨[], 0⟩ c10Row
      ⟨[("2330", { name := "TSMC" })], 0⟩ (by rfl)
      (by decide) (by decide) (by decide) (by decide)).1,
   (c10_neutral_action_frame (mkIx stdHeaders) ⟨[], 0⟩ c10Row
      ⟨[("2330", { name := "TSMC" })], 0⟩ (by rfl)
      (by decide) (by decide) (by decide) (by decide)).2 "2330"⟩
